import Mathlib

/- Verification of the voice-input repository core: the provider retry
   loops (NexaraProvider / PalatineProvider), the process-lock coordination
   (ProcessManager, index.js), the capture/transcribe/deliver session
   pipeline (VoiceInputApp, SimpleAudioRecorder) and the clipboard text
   formatting (VoiceInputApp.formatTextToMultiLine / copyText). -/

namespace VoiceInput

/-- Whether a character is JavaScript string whitespace, as used by
String.prototype.trim on the ASCII payloads this program handles. -/
def isJsWs (c : Char) : Bool :=
  c == ' ' || c == '\t' || c == '\n' || c == '\r' || c == '\x0b' || c == '\x0c'

/-- JavaScript s.trim() on the character list: whitespace dropped from
both ends. -/
def jsTrimList (l : List Char) : List Char :=
  ((l.dropWhile isJsWs).reverse.dropWhile isJsWs).reverse

/-- JavaScript s.trim(). -/
def jsTrim (s : String) : String :=
  ⟨jsTrimList s.data⟩

/-- Whether the character list starting here begins with the pattern. -/
def charsStartWith : List Char → List Char → Bool
  | [], _ => true
  | _ :: _, [] => false
  | p :: ps, c :: cs => p == c && charsStartWith ps cs

/-- Whether the pattern occurs contiguously somewhere in the list. -/
def charsContain (pat : List Char) : List Char → Bool
  | [] => charsStartWith pat []
  | c :: cs => charsStartWith pat (c :: cs) || charsContain pat cs

/-- JavaScript a.includes(b). -/
def strIncludes (s pat : String) : Bool :=
  charsContain pat.data s.data

/-- The observable fields of a JavaScript Error as the providers inspect
them: message, the optional code (axios sets ECONNABORTED on request
timeouts), whether error.response is present and its HTTP status, and
whether error.request is present. -/
structure JsError where
  message : String
  code : Option String
  hasResponse : Bool
  responseStatus : Nat
  hasRequest : Bool
deriving DecidableEq

/-- NexaraProvider.transcribe catch block: the SSL/VPN classification,
matched on the error message. -/
def isSSLError (e : JsError) : Bool :=
  strIncludes e.message "SSL routines" || strIncludes e.message "decryption failed" ||
    strIncludes e.message "bad record mac"

/-- Both providers: the request-timeout classification (axios code
ECONNABORTED, or a message mentioning a timeout). -/
def isTimeoutError (e : JsError) : Bool :=
  e.code == some "ECONNABORTED" || strIncludes e.message "timeout"

/-- PalatineProvider.transcribe catch block: error.response.status is 5xx. -/
def isServerError (e : JsError) : Bool :=
  e.hasResponse && 500 ≤ e.responseStatus

/-- Outcome of one axios POST attempt: a resolved response carrying
response.data.text (none when the service returned no text field), or a
rejected promise carrying a JsError. -/
inductive Attempt where
  | response (text : Option String)
  | failure (e : JsError)
deriving DecidableEq

/-- The error both providers raise when the response text is missing,
empty or whitespace-only; it is thrown inside the try and lands in the
same catch block as network errors. -/
def emptyResultError : JsError :=
  ⟨"Empty transcription result", none, false, 0, false⟩

/-- Per-provider retry condition and backoff delay, exactly as coded in
the providers catch blocks. -/
structure RetryPolicy where
  retryOn : JsError → Bool
  delayOf : Nat → Nat

/-- NexaraProvider: retry only SSL/VPN errors, with 1000 * attempt ms
backoff. -/
def nexaraPolicy : RetryPolicy :=
  ⟨fun e => isSSLError e, fun a => 1000 * a⟩

/-- PalatineProvider: retry timeouts and 5xx server errors, with
2000 * attempt ms backoff. -/
def palatinePolicy : RetryPolicy :=
  ⟨fun e => isTimeoutError e || isServerError e, fun a => 2000 * a⟩

/-- How a transcribe() call ended: the value returned, the error thrown,
or the for-loop running off its end (only possible with maxRetries = 0,
where JavaScript returns undefined). -/
inductive TOutcome where
  | ok (text : String)
  | threw (e : JsError)
  | fellThrough
deriving DecidableEq

/-- A transcribe() run: how it ended, the index of the last attempt that
executed, and the backoff delays inserted between attempts, in order. -/
structure TRun where
  outcome : TOutcome
  attemptsUsed : Nat
  delays : List Nat
deriving DecidableEq

/-- The shared retry loop body of NexaraProvider.transcribe and
PalatineProvider.transcribe, from the given attempt number with the given
iterations remaining. A resolved response whose text is missing or
whitespace-only raises the empty-result error into the catch; the catch
retries per the policy while attempt < maxRetries, recording the backoff
delay, and otherwise rethrows the error unchanged. -/
def transcribeLoop (pol : RetryPolicy) (env : Nat → Attempt) (maxRetries : Nat) :
    Nat → Nat → TRun
  | attempt, 0 => ⟨.fellThrough, attempt - 1, []⟩
  | attempt, fuel + 1 =>
    match env attempt with
    | .response txt =>
      let t := txt.getD ""
      if (jsTrim t).length = 0 then
        if pol.retryOn emptyResultError ∧ attempt < maxRetries then
          let r := transcribeLoop pol env maxRetries (attempt + 1) fuel
          ⟨r.outcome, r.attemptsUsed, pol.delayOf attempt :: r.delays⟩
        else ⟨.threw emptyResultError, attempt, []⟩
      else ⟨.ok (jsTrim t), attempt, []⟩
    | .failure e =>
      if pol.retryOn e ∧ attempt < maxRetries then
        let r := transcribeLoop pol env maxRetries (attempt + 1) fuel
        ⟨r.outcome, r.attemptsUsed, pol.delayOf attempt :: r.delays⟩
      else ⟨.threw e, attempt, []⟩

/-- NexaraProvider.transcribe: attempts numbered 1 to maxRetries. -/
def nexaraTranscribe (env : Nat → Attempt) (maxRetries : Nat) : TRun :=
  transcribeLoop nexaraPolicy env maxRetries 1 maxRetries

/-- PalatineProvider.transcribe: attempts numbered 1 to maxRetries. -/
def palatineTranscribe (env : Nat → Attempt) (maxRetries : Nat) : TRun :=
  transcribeLoop palatinePolicy env maxRetries 1 maxRetries

/-- NexaraProvider backoff base delay in milliseconds (1000 * attempt). -/
def nexaraBaseDelay : Nat := 1000

/-- NexaraProvider default maxRetries. -/
def nexaraDefaultMaxRetries : Nat := 10

/-- PalatineProvider default maxRetries. -/
def palatineDefaultMaxRetries : Nat := 3

/-- Value of a hexadecimal digit character. -/
def hexVal (c : Char) : Nat :=
  if '0' ≤ c && c ≤ '9' then c.toNat - '0'.toNat
  else if 'a' ≤ c && c ≤ 'f' then c.toNat - 'a'.toNat + 10
  else c.toNat - 'A'.toNat + 10

/-- Whether the character is a hexadecimal digit. -/
def isHexDig (c : Char) : Bool :=
  ('0' ≤ c && c ≤ '9') || ('a' ≤ c && c ≤ 'f') || ('A' ≤ c && c ≤ 'F')

/-- Whether the character is a decimal digit. -/
def isDecDig (c : Char) : Bool :=
  '0' ≤ c && c ≤ '9'

/-- Numeric value of a maximal digit run. -/
def digitsVal (base : Nat) (dv : Char → Nat) (ds : List Char) : Nat :=
  ds.foldl (fun acc c => acc * base + dv c) 0

/-- JavaScript parseInt(s) with no radix argument: skip leading
whitespace, take an optional sign, then either a 0x/0X-led maximal run of
hexadecimal digits or a maximal run of decimal digits; NaN (none) when
that run is empty. Trailing characters are ignored. -/
def jsParseInt (s : String) : Option Int :=
  let l := s.data.dropWhile isJsWs
  let signed : Int × List Char :=
    match l with
    | '-' :: rest => (-1, rest)
    | '+' :: rest => (1, rest)
    | _ => (1, l)
  match signed.2 with
  | '0' :: 'x' :: rest =>
    let ds := rest.takeWhile isHexDig
    if ds.isEmpty then none else some (signed.1 * (digitsVal 16 hexVal ds : Nat))
  | '0' :: 'X' :: rest =>
    let ds := rest.takeWhile isHexDig
    if ds.isEmpty then none else some (signed.1 * (digitsVal 16 hexVal ds : Nat))
  | other =>
    let ds := other.takeWhile isDecDig
    if ds.isEmpty then none else some (signed.1 * (digitsVal 10 (fun c => c.toNat - '0'.toNat) ds : Nat))

/-- State of the lock artifact /tmp/voice-input.pid: absent, present but
unreadable (readFileSync throws), or present with the given contents. -/
inductive LockFile where
  | absent
  | unreadable
  | content (s : String)
deriving DecidableEq

/-- A signal sent by this invocation: target pid and signal name. -/
structure SigSend where
  pid : Int
  sig : String
deriving DecidableEq

/-- What ProcessManager.checkAndStopExisting did: the boolean it returned,
the lock-file state it left behind, and the signals it sent. -/
structure CheckResult where
  sentStop : Bool
  fs : LockFile
  signals : List SigSend
deriving DecidableEq

/-- ProcessManager.checkAndStopExisting over the lock-file state and a
process-liveness oracle (process.kill(pid, 0) succeeding). The surrounding
try/catch turns an unreadable file into a plain false return; contents
whose parseInt is NaN delete the file and return false; a live recorded
pid is sent SIGUSR1 (best effort, a failed kill is caught) and true is
returned with the file kept; a dead recorded pid deletes the file and
returns false. killOrphanedRecordingProcesses is best-effort cleanup of
unrelated capture subprocesses and does not touch the lock protocol. -/
def checkAndStopExisting : LockFile → (Int → Bool) → CheckResult
  | .absent, _ => ⟨false, .absent, []⟩
  | .unreadable, _ => ⟨false, .unreadable, []⟩
  | .content s, alive =>
    match jsParseInt (jsTrim s) with
    | none => ⟨false, .absent, []⟩
    | some pid =>
      if alive pid then ⟨true, .content s, [⟨pid, "SIGUSR1"⟩]⟩
      else ⟨false, .absent, []⟩

/-- Trace of index.js main() from startup through the configuration
check: the exit code if it exited there (none when it proceeded into the
session), how many times it wrote the lock artifact, how many backup
files it wrote, the final lock-file state, and the signals sent. -/
structure MainTrace where
  exitCode : Option Nat
  lockWrites : Nat
  backupWrites : Nat
  fs : LockFile
  signals : List SigSend
deriving DecidableEq

/-- index.js main() up to the session proper: checkAndStopExisting, then
exit 0 when a stop signal was sent; otherwise createPidFile writes this
process pid to the lock file; a missing NEXARA_API_KEY then runs
processManager.cleanup() (unlinking the pid file) and exits 1; with the
key present the session runs (left abstract, exitCode none). No backup is
written on any of these paths. -/
def mainStartup (fs0 : LockFile) (alive : Int → Bool) (myPid : Int)
    (apiKey : Option String) : MainTrace :=
  let c := checkAndStopExisting fs0 alive
  if c.sentStop then
    ⟨some 0, 0, 0, c.fs, c.signals⟩
  else
    match apiKey with
    | none => ⟨some 1, 1, 0, .absent, c.signals⟩
    | some _ => ⟨none, 1, 0, .content (toString myPid), c.signals⟩

/-- What the arecord temp file holds when the capture subprocess exits:
missing, unreadable, or readable with the given byte length. -/
inductive TempFile where
  | missing
  | readError
  | bytes (n : Nat)
deriving DecidableEq

/-- SimpleAudioRecorder.stopRecording: with no recording in progress it
resolves null; otherwise, once arecord exits, it reads the temp file and
resolves the audio only when strictly more than the 44 WAV header bytes
are present, resolving null otherwise (missing file, read error, or a
too-short recording). The audio buffer is abstracted to its length. -/
def stopRecording (recording : Bool) (tf : TempFile) : Option Nat :=
  if !recording then none
  else
    match tf with
    | .missing => none
    | .readError => none
    | .bytes n => if 44 < n then some n else none

/-- How VoiceInputApp.run ended. -/
inductive RunOutcome where
  | recordingEmpty
  | completed
  | failed (e : JsError)
deriving DecidableEq

/-- Trace of VoiceInputApp.run: how it ended and how many transcription
and clipboard-delivery calls it made. -/
structure RunTrace where
  outcome : RunOutcome
  transcribeCalls : Nat
  deliverCalls : Nat
deriving DecidableEq

/-- VoiceInputApp.run, given the recording result and the outcomes of the
collaborators: a null audio buffer logs RECORDING_EMPTY and returns
normally, with no transcription and no delivery; otherwise the audio is
transcribed and the text copied via copyText (which skips the clipboard
when the text is whitespace-only); an error in either step rejects run. -/
def appRun (audio : Option Nat) (transcribeRes : Except JsError String)
    (deliverRes : Except JsError Unit) : RunTrace :=
  match audio with
  | none => ⟨.recordingEmpty, 0, 0⟩
  | some _ =>
    match transcribeRes with
    | .error e => ⟨.failed e, 1, 0⟩
    | .ok t =>
      if (jsTrim t).length = 0 then ⟨.completed, 1, 0⟩
      else
        match deliverRes with
        | .error e => ⟨.failed e, 1, 1⟩
        | .ok _ => ⟨.completed, 1, 1⟩

/-- index.js: the process exit code given how app.run ended; a resolved
run (including the no-audio return) exits 0, a rejected run exits 1. -/
def mainExit (r : RunTrace) : Nat :=
  match r.outcome with
  | .failed _ => 1
  | _ => 0

/-- The maximal runs of non-whitespace characters of the text, in order.
JavaScript text.split on a whitespace-run pattern yields these runs plus
possibly an empty string at either end, which the formatting loop skips
explicitly; the accumulator holds the current run reversed. -/
def wsTokensAux : List Char → List Char → List String
  | [], cur => if cur.isEmpty then [] else [⟨cur.reverse⟩]
  | c :: cs, cur =>
    if isJsWs c then
      if cur.isEmpty then wsTokensAux cs [] else ⟨cur.reverse⟩ :: wsTokensAux cs []
    else wsTokensAux cs (c :: cur)

/-- The whitespace-separated words of the text. -/
def wsWords (s : String) : List String :=
  wsTokensAux s.data []

/-- The single-space join of a block of words, the shape every line
produced by the wrapping loop has. -/
def joinSp : List String → String
  | [] => ""
  | [w] => w
  | w :: ws => w ++ " " ++ joinSp ws

/-- The greedy word-wrapping loop of VoiceInputApp.formatTextToMultiLine:
empty words are skipped; a word starts the current line when it is empty,
extends it when the joined length stays within maxLen, and otherwise
flushes the line and starts a new one; a final non-empty line is flushed
at the end. -/
def formatLoop (maxLen : Nat) : List String → String → List String → List String
  | [], cur, lines => if cur.length = 0 then lines else lines ++ [cur]
  | w :: ws, cur, lines =>
    if w.length = 0 then formatLoop maxLen ws cur lines
    else if cur.length = 0 then formatLoop maxLen ws w lines
    else if (cur ++ " " ++ w).length ≤ maxLen then formatLoop maxLen ws (cur ++ " " ++ w) lines
    else formatLoop maxLen ws w (lines ++ [cur])

/-- The block-level mirror of formatLoop: the same greedy traversal, but
recording each emitted line as the list of words it joins rather than as
the joined string. Used to state which words each output line holds. -/
def formatBlocks (maxLen : Nat) : List String → List String → List (List String) → List (List String)
  | [], curB, acc => if curB.isEmpty then acc else acc ++ [curB]
  | w :: ws, curB, acc =>
    if w.length = 0 then formatBlocks maxLen ws curB acc
    else if curB.isEmpty then formatBlocks maxLen ws [w] acc
    else if (joinSp curB ++ " " ++ w).length ≤ maxLen then formatBlocks maxLen ws (curB ++ [w]) acc
    else formatBlocks maxLen ws [w] (acc ++ [curB])

/-- VoiceInputApp.formatTextToMultiLine: empty or whitespace-only text is
returned unchanged; otherwise the whitespace-separated words are refilled
greedily into lines of at most 120 characters (a single word longer than
that stands alone on its line) and the lines are joined with newlines. -/
def formatTextToMultiLine (text : String) : String :=
  if (jsTrim text).length = 0 then text
  else String.intercalate "\n" (formatLoop 120 (wsWords text) "" [])

/-- VoiceInputApp.copyText: the text actually handed to the clipboard, or
none when the transcription is empty or whitespace-only (copyText logs
and returns without copying). -/
def copyTextDelivered (text : String) : Option String :=
  if (jsTrim text).length = 0 then none
  else some ("[Voice - verify]: " ++ formatTextToMultiLine text ++ ". ultrathink")

/-- Events of one session that reaches transcription, in order. -/
inductive SessionEvent where
  | backupWrite (path : String)
  | prune
  | providerCall
  | deliver
  | backupDelete (path : String)
deriving DecidableEq

/-- Terminal state of a session. -/
inductive SessionFinal where
  | completed
  | failed
deriving DecidableEq

/-- A session trace: its ordered events, its terminal state, and whether
the backup file still exists afterwards. -/
structure SessionTrace where
  events : List SessionEvent
  final : SessionFinal
  backupExists : Bool
deriving DecidableEq

/-- Modelled from the spec: the backup path derived from the session id,
one file per session under the recordings directory (Backup Safety Net,
spec section 4.4; the provider-era VoiceInputApp that implements the
backup steps is not among the provided sources, only its documentation). -/
def backupPath (sessionId : String) : String :=
  "var/recordings/" ++ sessionId ++ ".wav"

/-- Modelled from the spec: the backup steps of the Session State Machine
for a session that reaches transcription (spec sections 4.2 and 4.4; the
provider-era VoiceInputApp implementing them is missing from the provided
sources). The captured audio is written to the backup path and old
backups pruned before the provider call is issued; on provider success
the text is delivered and the backup deleted (Completed); on provider
failure, or on a fatal delivery failure, the session is Failed and the
backup is retained. -/
def sessionPipeline (sessionId : String) (providerRes : Except JsError String)
    (deliverOk : Bool) : SessionTrace :=
  let p := backupPath sessionId
  match providerRes with
  | .error _ => ⟨[.backupWrite p, .prune, .providerCall], .failed, true⟩
  | .ok _ =>
    if deliverOk then
      ⟨[.backupWrite p, .prune, .providerCall, .deliver, .backupDelete p], .completed, false⟩
    else
      ⟨[.backupWrite p, .prune, .providerCall, .deliver], .failed, true⟩

/-- The head of dropWhile fails the predicate. -/
theorem dropWhile_head?_not {p : Char → Bool} :
    ∀ (l : List Char) {c : Char}, (l.dropWhile p).head? = some c → p c = false := by
  intro l
  induction l with
  | nil => intro c h; simp at h
  | cons x xs ih =>
    intro c h
    rw [List.dropWhile_cons] at h
    by_cases hx : p x
    · rw [if_pos hx] at h
      exact ih h
    · rw [if_neg hx] at h
      simp only [List.head?_cons, Option.some.injEq] at h
      rw [← h]
      exact Bool.not_eq_true (p x) ▸ eq_false_of_ne_true hx

/-- A list whose head fails the predicate is unchanged by dropWhile. -/
theorem dropWhile_eq_self_of_head {p : Char → Bool} :
    ∀ (l : List Char), (∀ c, l.head? = some c → p c = false) → l.dropWhile p = l
  | [], _ => rfl
  | x :: xs, h => by
    rw [List.dropWhile_cons, if_neg]
    simp [h x rfl]

/-- dropWhile is idempotent. -/
theorem dropWhile_idem (p : Char → Bool) (l : List Char) :
    (l.dropWhile p).dropWhile p = l.dropWhile p :=
  dropWhile_eq_self_of_head _ (fun _ h => dropWhile_head?_not l h)

/-- Trimming a character list twice is the same as trimming it once. -/
theorem jsTrimList_idem (l : List Char) : jsTrimList (jsTrimList l) = jsTrimList l := by
  have h1 : (jsTrimList l).dropWhile isJsWs = jsTrimList l := by
    apply dropWhile_eq_self_of_head
    intro c hc
    unfold jsTrimList at hc
    rw [List.head?_reverse] at hc
    have hvne : (l.dropWhile isJsWs).reverse.dropWhile isJsWs ≠ [] := by
      intro h0
      rw [h0] at hc
      simp at hc
    have h2 : (l.dropWhile isJsWs).reverse.getLast? =
        ((l.dropWhile isJsWs).reverse.dropWhile isJsWs).getLast? := by
      conv_lhs => rw [← List.takeWhile_append_dropWhile isJsWs (l.dropWhile isJsWs).reverse]
      exact List.getLast?_append_of_ne_nil _ hvne
    have h3 : (l.dropWhile isJsWs).head? = some c := by
      rw [← List.getLast?_reverse (l.dropWhile isJsWs), h2, hc]
    exact dropWhile_head?_not l h3
  calc jsTrimList (jsTrimList l)
      = (((jsTrimList l).dropWhile isJsWs).reverse.dropWhile isJsWs).reverse := rfl
    _ = ((jsTrimList l).reverse.dropWhile isJsWs).reverse := by rw [h1]
    _ = ((((l.dropWhile isJsWs).reverse.dropWhile isJsWs).reverse).reverse.dropWhile isJsWs).reverse := rfl
    _ = (((l.dropWhile isJsWs).reverse.dropWhile isJsWs).dropWhile isJsWs).reverse := by
        rw [List.reverse_reverse]
    _ = ((l.dropWhile isJsWs).reverse.dropWhile isJsWs).reverse := by rw [dropWhile_idem]
    _ = jsTrimList l := rfl

/-- JavaScript trim is idempotent. -/
theorem jsTrim_idem (s : String) : jsTrim (jsTrim s) = jsTrim s := by
  show String.mk (jsTrimList (jsTrimList s.data)) = String.mk (jsTrimList s.data)
  rw [jsTrimList_idem]

/-- One loop step on a failing attempt that the policy does not retry or
with no retries remaining: the error is rethrown unchanged. -/
theorem transcribeLoop_throw_step (pol : RetryPolicy) (env : Nat → Attempt) (mR a f : Nat)
    (e : JsError) (henv : env a = .failure e)
    (hno : ¬(pol.retryOn e = true ∧ a < mR)) :
    transcribeLoop pol env mR a (f + 1) = ⟨.threw e, a, []⟩ := by
  simp only [transcribeLoop, henv]
  rw [if_neg hno]

/-- One loop step on a failing attempt that the policy retries. -/
theorem transcribeLoop_retry_step (pol : RetryPolicy) (env : Nat → Attempt) (mR a f : Nat)
    (e : JsError) (henv : env a = .failure e) (hr : pol.retryOn e = true) (hlt : a < mR) :
    transcribeLoop pol env mR a (f + 1) =
      ⟨(transcribeLoop pol env mR (a + 1) f).outcome,
       (transcribeLoop pol env mR (a + 1) f).attemptsUsed,
       pol.delayOf a :: (transcribeLoop pol env mR (a + 1) f).delays⟩ := by
  simp only [transcribeLoop, henv]
  rw [if_pos ⟨hr, hlt⟩]

/-- One loop step on a successful attempt with non-blank text. -/
theorem transcribeLoop_ok_step (pol : RetryPolicy) (env : Nat → Attempt) (mR a f : Nat)
    (t : String) (henv : env a = .response (some t)) (hne : ¬(jsTrim t).length = 0) :
    transcribeLoop pol env mR a (f + 1) = ⟨.ok (jsTrim t), a, []⟩ := by
  simp only [transcribeLoop, henv, Option.getD_some]
  rw [if_neg hne]

/-- One loop step on a blank (missing, empty or whitespace-only) response
under a policy that does not retry the empty-result error: the error is
thrown at once. -/
theorem transcribeLoop_empty_step (pol : RetryPolicy) (env : Nat → Attempt) (mR a f : Nat)
    (txt : Option String) (henv : env a = .response txt)
    (hz : (jsTrim (txt.getD "")).length = 0)
    (hno : pol.retryOn emptyResultError = false) :
    transcribeLoop pol env mR a (f + 1) = ⟨.threw emptyResultError, a, []⟩ := by
  simp only [transcribeLoop, henv]
  rw [if_pos hz, if_neg (by simp [hno])]

/-- Running the loop across j consecutive attempts that all fail with a
policy-retryable error: the loop continues at attempt a + j with j fewer
iterations of fuel, accumulating one backoff delay per retried attempt. -/
theorem transcribeLoop_skip (pol : RetryPolicy) (env : Nat → Attempt) (mR : Nat) :
    ∀ (j a fuel : Nat), j < fuel →
    (∀ i, a ≤ i → i < a + j → ∃ e, env i = .failure e ∧ pol.retryOn e = true) →
    a + j ≤ mR →
    transcribeLoop pol env mR a fuel =
      ⟨(transcribeLoop pol env mR (a + j) (fuel - j)).outcome,
       (transcribeLoop pol env mR (a + j) (fuel - j)).attemptsUsed,
       (List.range' a j).map pol.delayOf ++
         (transcribeLoop pol env mR (a + j) (fuel - j)).delays⟩ := by
  intro j
  induction j with
  | zero => intro a fuel _ _ _; simp
  | succ j ih =>
    intro a fuel hj hfail hle
    obtain ⟨f, rfl⟩ : ∃ f, fuel = f + 1 := ⟨fuel - 1, by omega⟩
    obtain ⟨e, henv, hr⟩ := hfail a (le_refl a) (by omega)
    rw [transcribeLoop_retry_step pol env mR a f e henv hr (by omega)]
    have ih2 := ih (a + 1) f (by omega) (fun i h1 h2 => hfail i (by omega) (by omega)) (by omega)
    have hidx : a + 1 + j = a + (j + 1) := by omega
    have hfuel : f - j = f + 1 - (j + 1) := by omega
    rw [ih2, hidx, hfuel]
    simp [List.range'_succ]

/-- Any text a transcribe loop returns successfully stays non-empty when
trimmed (it is the trim of the raw response text, and trim is
idempotent). -/
theorem transcribeLoop_ok_trim (pol : RetryPolicy) (env : Nat → Attempt) (mR : Nat) :
    ∀ (fuel a : Nat) (t : String),
    (transcribeLoop pol env mR a fuel).outcome = .ok t → ¬(jsTrim t).length = 0 := by
  intro fuel
  induction fuel with
  | zero => intro a t h; simp [transcribeLoop] at h
  | succ f ih =>
    intro a t h
    simp only [transcribeLoop] at h
    cases henv : env a with
    | response txt =>
      rw [henv] at h
      simp only [] at h
      split at h
      · split at h
        · exact ih (a + 1) t h
        · simp at h
      · simp only [TOutcome.ok.injEq] at h
        rw [← h, jsTrim_idem]
        assumption
    | failure e =>
      rw [henv] at h
      simp only [] at h
      split at h
      · exact ih (a + 1) t h
      · simp at h

/-- joinSp of a block extended by one more word. -/
theorem joinSp_append (w : String) :
    ∀ (b : List String), b ≠ [] → joinSp (b ++ [w]) = joinSp b ++ " " ++ w := by
  intro b
  induction b with
  | nil => intro h; exact absurd rfl h
  | cons x xs ih =>
    intro _
    cases xs with
    | nil => rfl
    | cons y ys =>
      have h2 := ih (by simp)
      calc joinSp ((x :: y :: ys) ++ [w])
          = x ++ " " ++ joinSp ((y :: ys) ++ [w]) := rfl
        _ = x ++ " " ++ (joinSp (y :: ys) ++ " " ++ w) := by rw [h2]
        _ = joinSp (x :: y :: ys) ++ " " ++ w := by
            show _ = (x ++ " " ++ joinSp (y :: ys)) ++ " " ++ w
            simp [String.append_assoc]

/-- A non-empty block of non-empty words joins to a non-empty line. -/
theorem joinSp_length_pos :
    ∀ (b : List String), b ≠ [] → (∀ w ∈ b, w.length ≠ 0) → (joinSp b).length ≠ 0 := by
  intro b
  cases b with
  | nil => intro h _; exact absurd rfl h
  | cons x xs =>
    intro _ hall
    cases xs with
    | nil => exact hall x (by simp)
    | cons y ys =>
      show (x ++ " " ++ joinSp (y :: ys)).length ≠ 0
      rw [String.length_append, String.length_append]
      have := hall x (by simp)
      omega

/-- The greedy wrapping loop partitions the word stream into consecutive
blocks, computed by formatBlocks: the emitted lines are the space-joins
of the blocks, the blocks concatenate back to the word stream, every
block is non-empty with non-empty words, and every block of two or more
words joins to at most maxLen characters. -/
theorem formatLoop_partition (maxLen : Nat) :
    ∀ (ws : List String) (curB : List String) (accB : List (List String)),
    (∀ w ∈ ws, w.length ≠ 0) →
    (∀ w ∈ curB, w.length ≠ 0) →
    (2 ≤ curB.length → (joinSp curB).length ≤ maxLen) →
    (∀ b ∈ accB, b ≠ [] ∧ (∀ w ∈ b, w.length ≠ 0) ∧
      (2 ≤ b.length → (joinSp b).length ≤ maxLen)) →
    formatLoop maxLen ws (joinSp curB) (accB.map joinSp) =
        (formatBlocks maxLen ws curB accB).map joinSp ∧
    (formatBlocks maxLen ws curB accB).flatten = accB.flatten ++ (curB ++ ws) ∧
    (∀ b ∈ formatBlocks maxLen ws curB accB, b ≠ [] ∧ (∀ w ∈ b, w.length ≠ 0) ∧
      (2 ≤ b.length → (joinSp b).length ≤ maxLen)) := by
  intro ws
  induction ws with
  | nil =>
    intro curB accB _ hcur hlen hacc
    by_cases hc : curB = []
    · subst hc
      refine ⟨by simp [formatLoop, formatBlocks, joinSp], by simp [formatBlocks], ?_⟩
      simp only [formatBlocks, List.isEmpty_nil, if_pos]
      exact hacc
    · have hce : ¬curB.isEmpty = true := by simpa [List.isEmpty_iff] using hc
      refine ⟨?_, ?_, ?_⟩
      · simp only [formatLoop, formatBlocks]
        rw [if_neg (joinSp_length_pos curB hc hcur), if_neg hce]
        simp
      · simp only [formatBlocks]
        rw [if_neg hce]
        simp
      · simp only [formatBlocks]
        rw [if_neg hce]
        intro b hb
        rcases List.mem_append.mp hb with hb | hb
        · exact hacc b hb
        · simp only [List.mem_singleton] at hb
          subst hb
          exact ⟨hc, hcur, hlen⟩
  | cons w ws ih =>
    intro curB accB hws hcur hlen hacc
    have hw : w.length ≠ 0 := hws w (by simp)
    have hws2 : ∀ x ∈ ws, x.length ≠ 0 := fun x hx => hws x (by simp [hx])
    by_cases hc : curB = []
    · subst hc
      have stepL : formatLoop maxLen (w :: ws) (joinSp []) (accB.map joinSp) =
          formatLoop maxLen ws (joinSp [w]) (accB.map joinSp) := by
        simp only [formatLoop, joinSp]
        rw [if_neg hw, if_pos (show "".length = 0 from rfl)]
      have stepB : formatBlocks maxLen (w :: ws) [] accB =
          formatBlocks maxLen ws [w] accB := by
        simp only [formatBlocks]
        rw [if_neg hw, if_pos (show ([] : List String).isEmpty = true from rfl)]
      obtain ⟨h1, h2, h3⟩ :=
        ih [w] accB hws2 (by simpa using hw) (by intro h; simp at h) hacc
      refine ⟨?_, ?_, ?_⟩
      · rw [stepL, stepB]
        exact h1
      · rw [stepB, h2]
        simp
      · rw [stepB]
        exact h3
    · have hce : ¬curB.isEmpty = true := by simpa [List.isEmpty_iff] using hc
      have hjs : (joinSp curB).length ≠ 0 := joinSp_length_pos curB hc hcur
      by_cases hfit : (joinSp curB ++ " " ++ w).length ≤ maxLen
      · have stepL : formatLoop maxLen (w :: ws) (joinSp curB) (accB.map joinSp) =
            formatLoop maxLen ws (joinSp (curB ++ [w])) (accB.map joinSp) := by
          simp only [formatLoop]
          rw [if_neg hw, if_neg hjs, if_pos hfit, joinSp_append w curB hc]
        have stepB : formatBlocks maxLen (w :: ws) curB accB =
            formatBlocks maxLen ws (curB ++ [w]) accB := by
          simp only [formatBlocks]
          rw [if_neg hw, if_neg hce, if_pos hfit]
        obtain ⟨h1, h2, h3⟩ := ih (curB ++ [w]) accB hws2
          (by
            intro x hx
            rcases List.mem_append.mp hx with hx | hx
            · exact hcur x hx
            · simp only [List.mem_singleton] at hx
              subst hx
              exact hw)
          (by
            intro _
            rw [joinSp_append w curB hc]
            exact hfit)
          hacc
        refine ⟨?_, ?_, ?_⟩
        · rw [stepL, stepB]
          exact h1
        · rw [stepB, h2]
          simp
        · rw [stepB]
          exact h3
      · have stepL : formatLoop maxLen (w :: ws) (joinSp curB) (accB.map joinSp) =
            formatLoop maxLen ws (joinSp [w]) ((accB ++ [curB]).map joinSp) := by
          simp only [formatLoop]
          rw [if_neg hw, if_neg hjs, if_neg hfit]
          simp [joinSp]
        have stepB : formatBlocks maxLen (w :: ws) curB accB =
            formatBlocks maxLen ws [w] (accB ++ [curB]) := by
          simp only [formatBlocks]
          rw [if_neg hw, if_neg hce, if_neg hfit]
        obtain ⟨h1, h2, h3⟩ :=
          ih [w] (accB ++ [curB]) hws2 (by simpa using hw) (by intro h; simp at h)
            (by
              intro b hb
              rcases List.mem_append.mp hb with hb | hb
              · exact hacc b hb
              · simp only [List.mem_singleton] at hb
                subst hb
                exact ⟨hc, hcur, hlen⟩)
        refine ⟨?_, ?_, ?_⟩
        · rw [stepL, stepB]
          exact h1
        · rw [stepB, h2]
          simp [List.flatten_append]
        · rw [stepB]
          exact h3

/-- A string built from a non-empty reversed run is non-empty. -/
theorem mkReverse_length_pos (cur : List Char) (h : ¬cur.isEmpty = true) :
    (String.mk cur.reverse).length ≠ 0 := by
  have hne : cur ≠ [] := by simpa [List.isEmpty_iff] using h
  show cur.reverse.length ≠ 0
  simpa [List.length_eq_zero] using hne

/-- Every whitespace-separated word produced by the tokenizer is
non-empty. -/
theorem wsTokensAux_length_pos :
    ∀ (l : List Char) (cur : List Char) (w : String),
    w ∈ wsTokensAux l cur → w.length ≠ 0 := by
  intro l
  induction l with
  | nil =>
    intro cur w hw
    by_cases hc : cur.isEmpty
    · simp [wsTokensAux, hc] at hw
    · simp only [wsTokensAux, if_neg hc, List.mem_singleton] at hw
      subst hw
      exact mkReverse_length_pos cur hc
  | cons c cs ih =>
    intro cur w hw
    by_cases hcws : isJsWs c
    · by_cases hc : cur.isEmpty
      · simp only [wsTokensAux, if_pos hcws, if_pos hc] at hw
        exact ih [] w hw
      · simp only [wsTokensAux, if_pos hcws, if_neg hc, List.mem_cons] at hw
        rcases hw with hw | hw
        · subst hw
          exact mkReverse_length_pos cur hc
        · exact ih [] w hw
    · simp only [wsTokensAux, if_neg hcws] at hw
      exact ih (c :: cur) w hw

/-- Every word of wsWords is non-empty. -/
theorem wsWords_length_pos (s : String) : ∀ w ∈ wsWords s, w.length ≠ 0 :=
  fun w hw => wsTokensAux_length_pos s.data [] w hw

/-- C1: for every session that reaches transcription, the backup file is
written (to the path derived from the session id) strictly before the
provider network call is issued; after a Completed session the backup is
absent, and after a Failed session it still exists. Settled against the
spec-modelled session pipeline. -/
theorem c1_backup_lifecycle (sid : String) (res : Except JsError String) (dOk : Bool) :
    ∃ i j : Nat, i < j ∧
      (sessionPipeline sid res dOk).events[i]? = some (SessionEvent.backupWrite (backupPath sid)) ∧
      (sessionPipeline sid res dOk).events[j]? = some SessionEvent.providerCall ∧
      ((sessionPipeline sid res dOk).final = .completed →
        (sessionPipeline sid res dOk).backupExists = false) ∧
      ((sessionPipeline sid res dOk).final = .failed →
        (sessionPipeline sid res dOk).backupExists = true) := by
  rcases res with e | t
  · refine ⟨0, 2, by omega, rfl, rfl, ?_, fun _ => rfl⟩
    intro h
    simp [sessionPipeline] at h
  · cases dOk
    · refine ⟨0, 2, by omega, rfl, rfl, ?_, fun _ => rfl⟩
      intro h
      simp [sessionPipeline] at h
    · refine ⟨0, 2, by omega, rfl, rfl, fun _ => rfl, ?_⟩
      intro h
      simp [sessionPipeline] at h

/-- C1 witness: a concrete completed session has no backup left. -/
theorem c1_backup_lifecycle_witness :
    (sessionPipeline "s1" (Except.ok "text") true).backupExists = false := by
  obtain ⟨i, j, _, _, _, h4, _⟩ := c1_backup_lifecycle "s1" (Except.ok "text") true
  exact h4 rfl

/-- C2 counterexample: the claim quantifies over every provider, but the
Palatine provider retries a request-timeout failure. With the default
maxRetries = 3, a timeout on attempt 1 is followed by attempt 2 (after a
2000 ms backoff), which succeeds — the call neither fails nor stops at
the timeout. -/
theorem c2_timeout_counterexample :
    palatineTranscribe
      (fun i => if i = 1
        then .failure ⟨"timeout of 180000ms exceeded", some "ECONNABORTED", false, 0, true⟩
        else .response (some "hello"))
      palatineDefaultMaxRetries = ⟨.ok "hello", 2, [2000]⟩ := rfl

/-- C2 (amended): for the Nexara provider, a request-timeout failure that
does not also match the SSL retry patterns is never followed by a further
attempt: whatever attempt j it strikes, the call fails immediately with
that error, regardless of how many retries remain. (The Palatine provider
instead retries timeouts while attempts remain.) -/
theorem c2_nexara_timeout_no_retry (env : Nat → Attempt) (mR j : Nat) (e : JsError)
    (hj1 : 1 ≤ j) (hjm : j ≤ mR)
    (hreach : ∀ i, 1 ≤ i → i < j → ∃ x, env i = .failure x ∧ isSSLError x = true)
    (henv : env j = .failure e) (ht : isTimeoutError e = true) (hs : isSSLError e = false) :
    nexaraTranscribe env mR =
      ⟨.threw e, j, (List.range' 1 (j - 1)).map (fun a => nexaraBaseDelay * a)⟩ := by
  unfold nexaraTranscribe
  have hskip := transcribeLoop_skip nexaraPolicy env mR (j - 1) 1 mR (by omega)
    (by intro i h1 h2; exact hreach i h1 (by omega)) (by omega)
  have hidx : 1 + (j - 1) = j := by omega
  rw [hidx] at hskip
  obtain ⟨f, hf⟩ : ∃ f, mR - (j - 1) = f + 1 := ⟨mR - (j - 1) - 1, by omega⟩
  rw [hf] at hskip
  rw [transcribeLoop_throw_step nexaraPolicy env mR j f e henv
    (by simp [nexaraPolicy, hs])] at hskip
  rw [hskip]
  simp [nexaraPolicy, nexaraBaseDelay]

/-- C2 witness: a Nexara call whose first attempt times out fails at once. -/
theorem c2_nexara_timeout_no_retry_witness :
    nexaraTranscribe
      (fun _ => .failure ⟨"timeout of 120000ms exceeded", some "ECONNABORTED", false, 0, true⟩)
      nexaraDefaultMaxRetries =
      ⟨.threw ⟨"timeout of 120000ms exceeded", some "ECONNABORTED", false, 0, true⟩, 1, []⟩ :=
  c2_nexara_timeout_no_retry _ nexaraDefaultMaxRetries 1 _ (by omega) (by decide)
    (by intro i h1 h2; omega) rfl (by decide) (by decide)

/-- C3 counterexample: an invocation with no existing lock and a missing
credential terminates with the configuration error (exit 1), yet it did
create the lock artifact first — createPidFile runs before the
NEXARA_API_KEY check, contradicting the claim that no lock artifact was
ever created by that invocation. -/
theorem c3_config_error_counterexample :
    (mainStartup .absent (fun _ => false) 42 none).exitCode = some 1 ∧
    (mainStartup .absent (fun _ => false) 42 none).lockWrites = 1 := ⟨rfl, rfl⟩

/-- C3 (amended): whenever the program terminates with the configuration
error, no backup was written, and although the invocation did create the
lock artifact (the pid file is written before the credential check), the
cleanup before exit removes it, so no lock artifact remains at exit. -/
theorem c3_config_error_cleanup (fs0 : LockFile) (alive : Int → Bool) (myPid : Int)
    (hexit : (mainStartup fs0 alive myPid none).exitCode = some 1) :
    (mainStartup fs0 alive myPid none).backupWrites = 0 ∧
    (mainStartup fs0 alive myPid none).lockWrites = 1 ∧
    (mainStartup fs0 alive myPid none).fs = .absent := by
  by_cases h : (checkAndStopExisting fs0 alive).sentStop = true
  · exfalso
    unfold mainStartup at hexit
    rw [if_pos h] at hexit
    simp at hexit
  · unfold mainStartup
    rw [if_neg h]
    exact ⟨rfl, rfl, rfl⟩

/-- C3 witness: the amended claim at a concrete configuration-error run. -/
theorem c3_config_error_cleanup_witness :
    (mainStartup .absent (fun _ => true) 42 none).backupWrites = 0 ∧
    (mainStartup .absent (fun _ => true) 42 none).lockWrites = 1 ∧
    (mainStartup .absent (fun _ => true) 42 none).fs = .absent :=
  c3_config_error_cleanup .absent (fun _ => true) 42 rfl

/-- C4: an invocation that observes a live lock (a lock artifact whose
recorded pid is alive) sends SIGUSR1 to that pid, exits with code 0,
writes no lock artifact of its own, and leaves the existing lock
untouched — so it never becomes a second lock holder. -/
theorem c4_live_lock_signal_exit (s : String) (pid : Int) (alive : Int → Bool)
    (myPid : Int) (apiKey : Option String)
    (hpid : jsParseInt (jsTrim s) = some pid) (halive : alive pid = true) :
    mainStartup (.content s) alive myPid apiKey =
      ⟨some 0, 0, 0, .content s, [⟨pid, "SIGUSR1"⟩]⟩ := by
  have hc : checkAndStopExisting (.content s) alive =
      ⟨true, .content s, [⟨pid, "SIGUSR1"⟩]⟩ := by
    simp only [checkAndStopExisting]
    rw [hpid]
    simp [halive]
  unfold mainStartup
  rw [hc]
  rfl

/-- C4 witness: a live lock holding pid 123 is signalled and the caller
exits 0 without writing a lock. -/
theorem c4_live_lock_signal_exit_witness :
    mainStartup (.content "123") (fun _ => true) 99 none =
      ⟨some 0, 0, 0, .content "123", [⟨123, "SIGUSR1"⟩]⟩ :=
  c4_live_lock_signal_exit "123" 123 (fun _ => true) 99 none rfl rfl

/-- C5: if the first K attempts fail with transient TLS-layer (SSL)
errors and attempt K+1 succeeds with non-blank text, K < maxRetries, then
Nexara transcribe succeeds after exactly K+1 attempts, the backoff delays
between attempts are attempt * baseDelay for attempt = 1..K, and those
delays are non-decreasing. -/
theorem c5_retry_determinism (env : Nat → Attempt) (mR K : Nat) (t : String)
    (hK : K < mR)
    (hfail : ∀ i, 1 ≤ i → i ≤ K → ∃ e, env i = .failure e ∧ isSSLError e = true)
    (hsucc : env (K + 1) = .response (some t)) (hne : ¬(jsTrim t).length = 0) :
    nexaraTranscribe env mR =
      ⟨.ok (jsTrim t), K + 1, (List.range' 1 K).map (fun a => nexaraBaseDelay * a)⟩ ∧
    List.Chain' (fun d1 d2 => d1 ≤ d2) (nexaraTranscribe env mR).delays := by
  have hskip := transcribeLoop_skip nexaraPolicy env mR K 1 mR (by omega)
    (by intro i h1 h2; exact hfail i h1 (by omega)) (by omega)
  have hidx : 1 + K = K + 1 := by omega
  rw [hidx] at hskip
  obtain ⟨f, hf⟩ : ∃ f, mR - K = f + 1 := ⟨mR - K - 1, by omega⟩
  rw [hf] at hskip
  rw [transcribeLoop_ok_step nexaraPolicy env mR (K + 1) f t hsucc hne] at hskip
  have hmain : nexaraTranscribe env mR =
      ⟨.ok (jsTrim t), K + 1, (List.range' 1 K).map (fun a => nexaraBaseDelay * a)⟩ := by
    unfold nexaraTranscribe
    rw [hskip]
    simp [nexaraPolicy, nexaraBaseDelay]
  refine ⟨hmain, ?_⟩
  rw [hmain]
  refine List.Pairwise.chain' (List.Pairwise.map _ ?_ (List.pairwise_lt_range' 1 K 1))
  intro a b hab
  simp only [nexaraBaseDelay]
  omega

/-- C5 witness: two SSL failures then success, with delays 1000 and 2000. -/
theorem c5_retry_determinism_witness :
    nexaraTranscribe
      (fun i => if i ≤ 2 then .failure ⟨"SSL routines failure", none, false, 0, true⟩
        else .response (some " ok text ")) 10 =
      ⟨.ok "ok text", 3, [1000, 2000]⟩ :=
  (c5_retry_determinism _ 10 2 " ok text " (by omega)
    (fun i h1 h2 => ⟨⟨"SSL routines failure", none, false, 0, true⟩, by
      show (if i ≤ 2 then _ else _) = _
      rw [if_pos h2], by decide⟩)
    (by decide) (by decide)).1

/-- C6: if all maxRetries attempts fail with transient (SSL) errors, the
Nexara transcribe call fails and the error thrown is exactly the error of
the final attempt. -/
theorem c6_retry_exhaustion (env : Nat → Attempt) (mR : Nat) (e : JsError)
    (hm : 1 ≤ mR)
    (hfail : ∀ i, 1 ≤ i → i < mR → ∃ x, env i = .failure x ∧ isSSLError x = true)
    (hlast : env mR = .failure e) (htrans : isSSLError e = true) :
    (nexaraTranscribe env mR).outcome = .threw e ∧
    (nexaraTranscribe env mR).attemptsUsed = mR := by
  have hskip := transcribeLoop_skip nexaraPolicy env mR (mR - 1) 1 mR (by omega)
    (by intro i h1 h2; exact hfail i h1 (by omega)) (by omega)
  have hidx : 1 + (mR - 1) = mR := by omega
  rw [hidx] at hskip
  have hf : mR - (mR - 1) = 0 + 1 := by omega
  rw [hf] at hskip
  rw [transcribeLoop_throw_step nexaraPolicy env mR mR 0 e hlast (by simp)] at hskip
  unfold nexaraTranscribe
  rw [hskip]
  exact ⟨rfl, rfl⟩

/-- C6 witness: both of two attempts fail with SSL errors; the second
error is the one thrown. -/
theorem c6_retry_exhaustion_witness :
    (nexaraTranscribe (fun i => if i = 1
        then .failure ⟨"SSL routines alpha", none, false, 0, true⟩
        else .failure ⟨"bad record mac", none, false, 0, true⟩) 2).outcome =
      .threw ⟨"bad record mac", none, false, 0, true⟩ :=
  (c6_retry_exhaustion _ 2 _ (by omega)
    (fun i h1 h2 => ⟨⟨"SSL routines alpha", none, false, 0, true⟩, by
      have hi : i = 1 := by omega
      subst hi
      rfl, by decide⟩)
    (by decide) (by decide)).1

/-- C7: for both providers, any successfully returned text is non-empty
after trimming; and a response whose text is missing, empty or
whitespace-only makes the call fail on that very attempt with the
empty-result error, with no retry (the loop stops at that attempt with no
further backoff). -/
theorem c7_nonempty_or_immediate_failure :
    (∀ (env : Nat → Attempt) (mR : Nat) (t : String),
      (nexaraTranscribe env mR).outcome = .ok t → ¬(jsTrim t).length = 0) ∧
    (∀ (env : Nat → Attempt) (mR : Nat) (t : String),
      (palatineTranscribe env mR).outcome = .ok t → ¬(jsTrim t).length = 0) ∧
    (∀ (env : Nat → Attempt) (mR a f : Nat) (txt : Option String),
      env a = .response txt → (jsTrim (txt.getD "")).length = 0 →
      transcribeLoop nexaraPolicy env mR a (f + 1) = ⟨.threw emptyResultError, a, []⟩) ∧
    (∀ (env : Nat → Attempt) (mR a f : Nat) (txt : Option String),
      env a = .response txt → (jsTrim (txt.getD "")).length = 0 →
      transcribeLoop palatinePolicy env mR a (f + 1) = ⟨.threw emptyResultError, a, []⟩) := by
  refine ⟨?_, ?_, ?_, ?_⟩
  · intro env mR t h
    exact transcribeLoop_ok_trim nexaraPolicy env mR mR 1 t h
  · intro env mR t h
    exact transcribeLoop_ok_trim palatinePolicy env mR mR 1 t h
  · intro env mR a f txt henv hz
    exact transcribeLoop_empty_step nexaraPolicy env mR a f txt henv hz (by decide)
  · intro env mR a f txt henv hz
    exact transcribeLoop_empty_step palatinePolicy env mR a f txt henv hz (by decide)

/-- C7 witness: a whitespace-only response on the first Nexara attempt
throws the empty-result error immediately. -/
theorem c7_nonempty_or_immediate_failure_witness :
    transcribeLoop nexaraPolicy (fun _ => .response (some "   ")) 10 1 10 =
      ⟨.threw emptyResultError, 1, []⟩ :=
  c7_nonempty_or_immediate_failure.2.2.1 (fun _ => .response (some "   ")) 10 1 9
    (some "   ") rfl (by decide)

/-- C8: a stop that yields no audio, or audio of at most the 44 WAV
header bytes, resolves null; the session then ends in the no-audio
condition without any transcription or delivery call, and the process
exit code is 0. -/
theorem c8_no_audio_graceful :
    (∀ (rec : Bool) (n : Nat), n ≤ 44 → stopRecording rec (.bytes n) = none) ∧
    (∀ (rec : Bool) (tf : TempFile) (tr : Except JsError String) (dr : Except JsError Unit),
      stopRecording rec tf = none →
      appRun (stopRecording rec tf) tr dr = ⟨.recordingEmpty, 0, 0⟩ ∧
      mainExit (appRun (stopRecording rec tf) tr dr) = 0) := by
  constructor
  · intro rec n hn
    cases rec
    · rfl
    · simp [stopRecording, show ¬44 < n from by omega]
  · intro rec tf tr dr h
    rw [h]
    exact ⟨rfl, rfl⟩

/-- C8 witness: a 44-byte recording (bare WAV header) resolves null. -/
theorem c8_no_audio_graceful_witness :
    stopRecording true (.bytes 44) = none :=
  c8_no_audio_graceful.1 true 44 (by omega)

/-- C9: for every non-blank transcription, the delivered clipboard text
is the fixed marker, then the line-wrapped transcription, then the fixed
trailing tag; the wrapped lines are the space-joins of consecutive blocks
of the original whitespace-separated words (so the word sequence is
preserved exactly), every line is non-empty, and every line holding two
or more words has at most 120 characters. -/
theorem c9_clipboard_format (t : String) (hne : ¬(jsTrim t).length = 0) :
    copyTextDelivered t =
      some ("[Voice - verify]: " ++
        String.intercalate "\n" ((formatBlocks 120 (wsWords t) [] []).map joinSp) ++
        ". ultrathink") ∧
    (formatBlocks 120 (wsWords t) [] []).flatten = wsWords t ∧
    (∀ b ∈ formatBlocks 120 (wsWords t) [] [], b ≠ []) ∧
    (∀ b ∈ formatBlocks 120 (wsWords t) [] [],
      2 ≤ b.length → (joinSp b).length ≤ 120) := by
  obtain ⟨h1, h2, h3⟩ := formatLoop_partition 120 (wsWords t) [] []
    (wsWords_length_pos t) (by intro w hw; simp at hw) (by intro h; simp at h)
    (by intro b hb; simp at hb)
  refine ⟨?_, by simpa using h2, fun b hb => (h3 b hb).1, fun b hb => (h3 b hb).2.2⟩
  unfold copyTextDelivered formatTextToMultiLine
  rw [if_neg hne, if_neg hne]
  have h1x : formatLoop 120 (wsWords t) "" [] =
      (formatBlocks 120 (wsWords t) [] []).map joinSp := by
    simpa [joinSp] using h1
  rw [h1x]

/-- C9 witness: the concrete delivered text for a two-word transcription. -/
theorem c9_clipboard_format_witness :
    copyTextDelivered "hello world" =
      some ("[Voice - verify]: " ++
        String.intercalate "\n" ((formatBlocks 120 (wsWords "hello world") [] []).map joinSp) ++
        ". ultrathink") :=
  (c9_clipboard_format "hello world" (by decide)).1

/-- C10: checkAndStopExisting is total over every lock-artifact state —
absent, unreadable, non-numeric contents, dead recorded pid, live
recorded pid — always returning a boolean result; in particular,
contents that do not parse as an integer delete the artifact and report
false, as if no lock existed. -/
theorem c10_check_and_stop_total :
    (∀ alive : Int → Bool, checkAndStopExisting .absent alive = ⟨false, .absent, []⟩) ∧
    (∀ alive : Int → Bool, checkAndStopExisting .unreadable alive = ⟨false, .unreadable, []⟩) ∧
    (∀ (alive : Int → Bool) (s : String), jsParseInt (jsTrim s) = none →
      checkAndStopExisting (.content s) alive = ⟨false, .absent, []⟩) ∧
    (∀ (alive : Int → Bool) (s : String) (pid : Int),
      jsParseInt (jsTrim s) = some pid → alive pid = true →
      checkAndStopExisting (.content s) alive = ⟨true, .content s, [⟨pid, "SIGUSR1"⟩]⟩) ∧
    (∀ (alive : Int → Bool) (s : String) (pid : Int),
      jsParseInt (jsTrim s) = some pid → alive pid = false →
      checkAndStopExisting (.content s) alive = ⟨false, .absent, []⟩) := by
  refine ⟨fun _ => rfl, fun _ => rfl, ?_, ?_, ?_⟩
  · intro alive s h
    simp only [checkAndStopExisting]
    rw [h]
  · intro alive s pid h ha
    simp only [checkAndStopExisting]
    rw [h]
    simp [ha]
  · intro alive s pid h ha
    simp only [checkAndStopExisting]
    rw [h]
    simp [ha]

/-- C10 witness: non-numeric lock contents are deleted and reported as no
lock. -/
theorem c10_check_and_stop_total_witness :
    checkAndStopExisting (.content "not-a-pid") (fun _ => true) = ⟨false, .absent, []⟩ :=
  c10_check_and_stop_total.2.2.1 (fun _ => true) "not-a-pid" rfl

end VoiceInput
